import Mathlib

/-!
Verification of the booking-lifecycle core of the hotel-booking repository.

The embedding models calendar dates the way the source handles them: the
source stores `checkIn`/`checkOut` as ISO `YYYY-MM-DD` strings and compares
them via JavaScript `new Date(...)` timestamps.  For such strings the
timestamp is `days × 86400000` ms, so we model a parsed date as its day
number since the Unix epoch (`parseDate`), with `none` standing for the
`NaN` timestamp of an invalid date string.  All JS comparisons on `NaN`
are false, which the `jsDateLt`/`jsDateLe` wrappers reproduce.
-/

namespace Hotel

/-- Booking status, from `src/src/types/index.ts` (`BookingStatus`). -/
inductive BookingStatus where
  | pending
  | accepted
  | rejected
deriving DecidableEq

/-- Room entity, from `src/src/types/index.ts` (`Room`). -/
structure Room where
  id : String
  name : String
  price : Int
  description : String
  images : List String
deriving DecidableEq

/-- Booking entity, from `src/src/types/index.ts` (`Booking`). -/
structure Booking where
  id : String
  roomIds : List String
  guestName : String
  guestPhone : String
  guestEmail : String
  checkIn : String
  checkOut : String
  status : BookingStatus
  totalPrice : Int
  createdAt : String
  updatedAt : Option String
deriving DecidableEq

/-- Whether a year is a leap year (Gregorian rule), used to bound the day
field when parsing an ISO date the way `new Date` does. -/
def isLeapYear (y : Int) : Bool :=
  (y % 4 == 0 && y % 100 != 0) || y % 400 == 0

/-- Number of days in a month of a given year. -/
def daysInMonth (y m : Int) : Int :=
  if m == 2 then (if isLeapYear y then 29 else 28)
  else if m == 4 || m == 6 || m == 9 || m == 11 then 30
  else 31

/-- Day number since 1970-01-01 of a civil date (standard days-from-civil
algorithm).  All intermediate divisions have non-negative operands for the
year range 0000-9999 accepted by the parser (the single negative case,
year 0 in January/February, divides -400 by 400 exactly), so the value
does not depend on the integer-division rounding convention. -/
def daysFromCivil (y m d : Int) : Int :=
  let yAdj : Int := if m ≤ 2 then y - 1 else y
  let era : Int := (if 0 ≤ yAdj then yAdj else yAdj - 399) / 400
  let yoe : Int := yAdj - era * 400
  let mp : Int := (m + 9) % 12
  let doy : Int := (153 * mp + 2) / 5 + d - 1
  let doe : Int := yoe * 365 + yoe / 4 - yoe / 100 + doy
  era * 146097 + doe - 719468

/-- Numeric value of two decimal digit characters. -/
def twoDigits (a b : Char) : Int :=
  ((a.toNat : Int) - 48) * 10 + ((b.toNat : Int) - 48)

/-- Models `new Date(s).getTime()` (scaled from milliseconds to days) for
the date strings this application produces: ISO `YYYY-MM-DD` from
`<input type="date">` and `toISOString().slice(0, 10)`.  A string that is
not a valid ISO calendar date yields `none`, standing for the `NaN`
timestamp of an invalid `Date`. -/
def parseDate (s : String) : Option Int :=
  match s.toList with
  | [y1, y2, y3, y4, sep1, m1, m2, sep2, d1, d2] =>
    if sep1 == '-' && sep2 == '-' &&
        [y1, y2, y3, y4, m1, m2, d1, d2].all Char.isDigit then
      let y := twoDigits y1 y2 * 100 + twoDigits y3 y4
      let m := twoDigits m1 m2
      let d := twoDigits d1 d2
      if 1 ≤ m ∧ m ≤ 12 ∧ 1 ≤ d ∧ d ≤ daysInMonth y m then
        some (daysFromCivil y m d)
      else none
    else none
  | _ => none

/-- JS `new Date(a) < new Date(b)`: false whenever either side is `NaN`. -/
def jsDateLt (a b : String) : Bool :=
  match parseDate a, parseDate b with
  | some x, some y => decide (x < y)
  | _, _ => false

/-- JS `new Date(a) <= new Date(b)`: false whenever either side is `NaN`. -/
def jsDateLe (a b : String) : Bool :=
  match parseDate a, parseDate b with
  | some x, some y => decide (x ≤ y)
  | _, _ => false

/-- `overlaps(a, b)` of `src/unnamed/part_012` lines 57-63:
`aIn < bOut && aOut > bIn` on `new Date` values. -/
def overlaps (a b : Booking) : Bool :=
  jsDateLt a.checkIn b.checkOut && jsDateLt b.checkIn a.checkOut

/-- `conflicts(booking)` of `src/unnamed/part_012` lines 65-73; the
component closes over the loaded `bookings` state, passed here explicitly
as `allBookings`. -/
def conflicts (booking : Booking) (allBookings : List Booking) : List Booking :=
  allBookings.filter fun b =>
    b.id != booking.id && b.status == BookingStatus.accepted &&
      overlaps booking b &&
      booking.roomIds.any fun id => b.roomIds.contains id

/-- `getRoomById` as used in `src/unnamed/part_012` line 53:
`rooms.find((r) => r.id === id)` over the loaded room list. -/
def getRoomById (rooms : List Room) (id : String) : Option Room :=
  rooms.find? fun r => r.id == id

/-- `getRoomById(id)?.name ?? id`, the room label interpolated into
admin emails (`src/unnamed/part_012` line 106). -/
def roomLabel (rooms : List Room) (id : String) : String :=
  match getRoomById rooms id with
  | some room => room.name
  | none => id

/-- `bookingTotal` of `src/unnamed/part_012` lines 75-87.  For each room id
that resolves, the source adds `room.price * Math.max(0, nights)` where
`nights` is the millisecond difference of the two `new Date` values over
86400000; an id that does not resolve leaves the sum unchanged.  When a
date is invalid the difference is `NaN` and the sum becomes `NaN` as soon
as a resolvable room id is reached; `NaN` is modelled as `none`. -/
def bookingTotal (rooms : List Room) (b : Booking) : Option Int :=
  b.roomIds.foldl
    (fun sum id =>
      match getRoomById rooms id with
      | none => sum
      | some room =>
        match sum, parseDate b.checkIn, parseDate b.checkOut with
        | some s, some cin, some cout => some (s + room.price * max 0 (cout - cin))
        | _, _, _ => none)
    (some 0)

/-- Comma-groups a reversed digit list in threes, least significant first. -/
def groupRev : List Char → List Char
  | a :: b :: c :: d :: rest => a :: b :: c :: ',' :: groupRev (d :: rest)
  | l => l

/-- Decimal rendering of a natural number with comma thousands separators. -/
def natToLocale (n : Nat) : String :=
  String.mk (groupRev (Nat.toDigits 10 n).reverse).reverse

/-- Models `Number.prototype.toLocaleString()` for the integer totals this
application produces, under an en-US-style default locale (digits grouped
in threes by commas); the `NaN` total of an invalid date renders as
`"NaN"`. -/
def jsToLocale : Option Int → String
  | none => "NaN"
  | some n => if n < 0 then "-" ++ natToLocale n.natAbs else natToLocale n.natAbs

/-- Whether `hay` starts with `needle`. -/
def listStartsWith : List Char → List Char → Bool
  | _, [] => true
  | [], _ :: _ => false
  | h :: hs, n :: ns => (h == n) && listStartsWith hs ns

/-- Whether `needle` occurs contiguously inside `hay`. -/
def listContainsSub (needle : List Char) : List Char → Bool
  | [] => listStartsWith [] needle
  | c :: rest => listStartsWith (c :: rest) needle || listContainsSub needle rest

/-- Substring test on strings, via the character lists. -/
def strContains (hay needle : String) : Bool :=
  listContainsSub needle.toList hay.toList

/-- The arguments the admin component passes to `sendBookingStatusEmail`
(`src/lib/email.ts`): the booking, the new status, a subject and a body. -/
structure EmailMsg where
  booking : Booking
  status : BookingStatus
  subject : String
  body : String
deriving DecidableEq

/-- The booking written by `saveBooking` in `handleAccept`
(`src/unnamed/part_012` lines 91-95): the input spread with
`status: "accepted"` and `checkIn: proposedCheckIn || b.checkIn`, where the
admin's `proposedCheckIn` text state defaults to `""` and `"" || x` is `x`
in JS (the empty string is the only falsy string). -/
def acceptUpdated (b : Booking) (proposedCheckIn : String) : Booking :=
  { b with status := BookingStatus.accepted,
           checkIn := if proposedCheckIn == "" then b.checkIn else proposedCheckIn }

/-- The body of the approval email (`src/unnamed/part_012` lines 101-114),
reproduced verbatim: note that the interpolated total is
`bookingTotal(b)` - computed from the original booking `b`, not from
`updated`. -/
def acceptBody (rooms : List Room) (b : Booking) (proposedCheckIn : String) : String :=
  "Dear " ++ b.guestName ++ ",\n\nYour booking has been APPROVED.\n\nRooms:\n" ++
    String.intercalate ", " (b.roomIds.map (roomLabel rooms)) ++
    "\n\nCheck-in: " ++ (acceptUpdated b proposedCheckIn).checkIn ++
    "\nCheck-out: " ++ b.checkOut ++
    "\nNOTE: YOU ARE EXPECTLED TO STRICTLY MAKE PAYMENT ON ARRIVAL ON  " ++
    (acceptUpdated b proposedCheckIn).checkIn ++
    "\nTotal payable on arrival: FCFA" ++ jsToLocale (bookingTotal rooms b) ++
    "\n\nBest Regards,\nFRANCO HOTEL"

/-- `handleAccept` of `src/unnamed/part_012` lines 90-141: returns the
booking passed to `saveBooking` and the email message passed to
`sendBookingStatusEmail` (the source passes the original `b` as the email's
booking argument). -/
def handleAccept (rooms : List Room) (b : Booking) (proposedCheckIn : String) :
    Booking × EmailMsg :=
  (acceptUpdated b proposedCheckIn,
   { booking := b, status := BookingStatus.accepted, subject := "Booking Approved",
     body := acceptBody rooms b proposedCheckIn })

/-- The booking written by `saveBooking` in `handleReject`
(`src/unnamed/part_012` line 147): `{ ...rejecting, status: "rejected" }`. -/
def rejectUpdated (b : Booking) : Booking :=
  { b with status := BookingStatus.rejected }

/-- The body of the rejection email (`src/unnamed/part_012` lines 154-160),
reproduced verbatim (including the source's typos), with the free-text
`rejectReason` embedded. -/
def rejectBody (b : Booking) (reason : String) : String :=
  "Dear " ++ b.guestName ++
    ",\n      We\x27re sorry to inform you that, your booking of the room in hour hotel has been reject for the following reasons\n\n" ++
    reason ++ "\n\nRegards,\nFRANCO HOTEL"

/-- `handleReject` of `src/unnamed/part_012` lines 144-161: returns the
booking passed to `saveBooking` and the email message passed to
`sendBookingStatusEmail`. -/
def handleReject (b : Booking) (reason : String) : Booking × EmailMsg :=
  (rejectUpdated b,
   { booking := b, status := BookingStatus.rejected, subject := "Booking Rejected",
     body := rejectBody b reason })

/-- The observable effects of one admin action, in program order: a store
write (`saveBooking`) or a notification attempt (`sendBookingStatusEmail`). -/
inductive Effect where
  | save : Booking → Effect
  | sendEmail : EmailMsg → Effect
deriving DecidableEq

/-- Effect trace of `handleAccept`: the source awaits `saveBooking(updated)`
(line 97) before awaiting `sendBookingStatusEmail` (line 116). -/
def acceptEffects (rooms : List Room) (b : Booking) (proposedCheckIn : String) :
    List Effect :=
  [Effect.save (handleAccept rooms b proposedCheckIn).1,
   Effect.sendEmail (handleAccept rooms b proposedCheckIn).2]

/-- Effect trace of `handleReject`: `saveBooking` (line 147) is awaited
before `sendBookingStatusEmail` (line 150). -/
def rejectEffects (b : Booking) (reason : String) : List Effect :=
  [Effect.save (handleReject b reason).1,
   Effect.sendEmail (handleReject b reason).2]

/-- `saveBooking` of `src/src/lib/firestoreStorage.ts` lines 181-187:
an upsert of the whole booking document keyed by `booking.id`. -/
def putBooking (store : List Booking) (b : Booking) : List Booking :=
  if store.any fun x => x.id == b.id then
    store.map fun x => if x.id == b.id then b else x
  else store ++ [b]

/-- First stored booking with the given id (`getBookingById` semantics). -/
def getStored (store : List Booking) (id : String) : Option Booking :=
  store.find? fun x => x.id == id

/-- Runs an effect trace against the booking store.  A `save` performs the
upsert; a notification attempt touches no booking, whatever its outcome
`emailOk` - the source only displays a success or failure message
(`src/unnamed/part_012` lines 123-138). -/
def runEffects (store : List Booking) (emailOk : Bool) : List Effect → List Booking
  | [] => store
  | Effect.save b :: rest => runEffects (putBooking store b) emailOk rest
  | Effect.sendEmail _ :: rest => runEffects store emailOk rest

/-- Sample room used in concrete witnesses (price 20000, as in the spec scenario). -/
def roomStd : Room :=
  { id := "r1", name := "Standard", price := 20000, description := "", images := [] }

/-- Sample pending booking used in concrete witnesses. -/
def bookingA : Booking :=
  { id := "a", roomIds := ["r1"], guestName := "Ann", guestPhone := "100",
    guestEmail := "ann@example.com", checkIn := "2024-06-01", checkOut := "2024-06-03",
    status := BookingStatus.pending, totalPrice := 40000,
    createdAt := "2024-05-01T00:00:00.000Z", updatedAt := none }

/-- Sample accepted booking sharing room r1, staying 2024-06-02 to 2024-06-04. -/
def bookingB : Booking :=
  { id := "b", roomIds := ["r1", "r2"], guestName := "Bob", guestPhone := "200",
    guestEmail := "bob@example.com", checkIn := "2024-06-02", checkOut := "2024-06-04",
    status := BookingStatus.accepted, totalPrice := 0,
    createdAt := "2024-05-02T00:00:00.000Z", updatedAt := none }

/-- `String.toList` distributes over append. -/
theorem toList_append (a b : String) : (a ++ b).toList = a.toList ++ b.toList := by
  cases a
  cases b
  rfl

/-- The empty needle is a prefix of anything. -/
theorem startsWith_nil (l : List Char) : listStartsWith l [] = true := by
  cases l <;> rfl

/-- A list starts with itself, whatever follows. -/
theorem startsWith_append_self (n post : List Char) :
    listStartsWith (n ++ post) n = true := by
  induction n with
  | nil => exact startsWith_nil post
  | cons h t ih => simp [listStartsWith, ih]

/-- A needle occurs in itself. -/
theorem contains_refl (n : List Char) : listContainsSub n n = true := by
  cases n with
  | nil => rfl
  | cons c t =>
    simp only [listContainsSub, Bool.or_eq_true]
    exact Or.inl (by simpa using startsWith_append_self (c :: t) [])

/-- Occurrence survives prepending. -/
theorem contains_mono_left (a : List Char) {n l : List Char}
    (h : listContainsSub n l = true) : listContainsSub n (a ++ l) = true := by
  induction a with
  | nil => simpa using h
  | cons c t ih =>
    simp only [List.cons_append, listContainsSub, Bool.or_eq_true]
    exact Or.inr ih

/-- A prefix stays a prefix after appending on the right. -/
theorem startsWith_mono {l n : List Char} (b : List Char)
    (h : listStartsWith l n = true) : listStartsWith (l ++ b) n = true := by
  induction n generalizing l with
  | nil => exact startsWith_nil (l ++ b)
  | cons c nt ih =>
    cases l with
    | nil => simp [listStartsWith] at h
    | cons x xt =>
      simp only [listStartsWith, Bool.and_eq_true] at h
      simp only [List.cons_append, listStartsWith, Bool.and_eq_true]
      exact ⟨h.1, ih h.2⟩

/-- Occurrence survives appending. -/
theorem contains_mono_right {n l : List Char} (b : List Char)
    (h : listContainsSub n l = true) : listContainsSub n (l ++ b) = true := by
  induction l with
  | nil =>
    cases n with
    | nil => cases b <;> simp [listContainsSub, listStartsWith]
    | cons c t => simp [listContainsSub, listStartsWith] at h
  | cons x xt ih =>
    simp only [listContainsSub, Bool.or_eq_true] at h
    simp only [List.cons_append, listContainsSub, Bool.or_eq_true]
    rcases h with h | h
    · exact Or.inl (startsWith_mono b h)
    · exact Or.inr (ih h)

/-- Reduces the embedded JS date comparison once both strings parse. -/
theorem jsDateLt_of_parse {a b : String} {x y : Int}
    (ha : parseDate a = some x) (hb : parseDate b = some y) :
    jsDateLt a b = decide (x < y) := by
  unfold jsDateLt
  rw [ha, hb]

/-- Claim C1: `conflicts(candidate, allBookings)` returns exactly the
bookings `B` with `B.id != candidate.id`, `B.status == accepted`, a shared
room id, and boundary-exclusive date overlap
(`candidate.checkIn < B.checkOut` and `candidate.checkOut > B.checkIn`);
in particular a candidate whose check-in equals `B`'s check-out (or whose
check-out equals `B`'s check-in) is never reported as a conflict. -/
theorem conflicts_characterization
    (c B : Booking) (all : List Booking) (ci co bi bo : Int)
    (hci : parseDate c.checkIn = some ci) (hco : parseDate c.checkOut = some co)
    (hbi : parseDate B.checkIn = some bi) (hbo : parseDate B.checkOut = some bo) :
    (B ∈ conflicts c all ↔
      B ∈ all ∧ B.id ≠ c.id ∧ B.status = BookingStatus.accepted ∧
        (∃ r, r ∈ c.roomIds ∧ r ∈ B.roomIds) ∧ ci < bo ∧ co > bi) ∧
    ((ci = bo ∨ co = bi) → B ∉ conflicts c all) := by
  have hmain : B ∈ conflicts c all ↔
      B ∈ all ∧ B.id ≠ c.id ∧ B.status = BookingStatus.accepted ∧
        (∃ r, r ∈ c.roomIds ∧ r ∈ B.roomIds) ∧ ci < bo ∧ co > bi := by
    simp only [conflicts, List.mem_filter, overlaps,
      jsDateLt_of_parse hci hbo, jsDateLt_of_parse hbi hco,
      Bool.and_eq_true, bne_iff_ne, ne_eq, beq_iff_eq, List.any_eq_true,
      List.elem_iff, decide_eq_true_eq, gt_iff_lt]
    tauto
  refine ⟨hmain, fun hedge hmem => ?_⟩
  obtain ⟨-, -, -, -, h1, h2⟩ := hmain.mp hmem
  rcases hedge with h | h <;> omega

/-- Witness for C1: a concrete accepted booking with a shared room and an
overlapping stay is reported as a conflict. -/
theorem conflicts_characterization_witness :
    bookingB ∈ conflicts bookingA [bookingB] :=
  ((conflicts_characterization bookingA bookingB [bookingB] 19875 19877 19876 19878
      (by decide) (by decide) (by decide) (by decide)).1).mpr
    ⟨List.mem_singleton.mpr rfl, by decide, rfl, ⟨"r1", by decide, by decide⟩,
      by decide, by decide⟩

/-- Claim C2: the record persisted by accept equals the input booking
except that status becomes accepted and checkIn is replaced by
proposedCheckIn exactly when one is supplied (the empty admin input means
none was supplied); every other field is unchanged in every case. -/
theorem accept_frame (rooms : List Room) (b : Booking) (p : String) :
    (handleAccept rooms b p).1.status = BookingStatus.accepted ∧
    (p ≠ "" → (handleAccept rooms b p).1.checkIn = p) ∧
    (p = "" → (handleAccept rooms b p).1.checkIn = b.checkIn) ∧
    (handleAccept rooms b p).1.id = b.id ∧
    (handleAccept rooms b p).1.roomIds = b.roomIds ∧
    (handleAccept rooms b p).1.guestName = b.guestName ∧
    (handleAccept rooms b p).1.guestPhone = b.guestPhone ∧
    (handleAccept rooms b p).1.guestEmail = b.guestEmail ∧
    (handleAccept rooms b p).1.checkOut = b.checkOut ∧
    (handleAccept rooms b p).1.totalPrice = b.totalPrice ∧
    (handleAccept rooms b p).1.createdAt = b.createdAt ∧
    (handleAccept rooms b p).1.updatedAt = b.updatedAt := by
  refine ⟨rfl, fun h => ?_, fun h => ?_, rfl, rfl, rfl, rfl, rfl, rfl, rfl, rfl, rfl⟩
  · simp [handleAccept, acceptUpdated, beq_iff_eq, h]
  · simp [handleAccept, acceptUpdated, beq_iff_eq, h]

/-- Witness for C2: a supplied proposed check-in replaces the original. -/
theorem accept_frame_witness :
    (handleAccept [roomStd] bookingA "2024-06-10").1.checkIn = "2024-06-10" :=
  (accept_frame [roomStd] bookingA "2024-06-10").2.1 (by decide)

set_option maxRecDepth 40000 in
/-- Counterexample to claim C3: accepting `bookingA` (2 nights at 20000)
with proposed check-in 2024-06-02 persists a 1-night booking whose
recomputed total is 20000, yet the notification body carries the original
total 40000 - the source interpolates `bookingTotal(b)`, not the total of
`updated`. -/
theorem accept_email_total_counterexample :
    bookingTotal [roomStd] ((handleAccept [roomStd] bookingA "2024-06-02").1) =
      some 20000 ∧
    bookingTotal [roomStd] bookingA = some 40000 ∧
    strContains (handleAccept [roomStd] bookingA "2024-06-02").2.body
      (jsToLocale (some 20000)) = false ∧
    strContains (handleAccept [roomStd] bookingA "2024-06-02").2.body
      (jsToLocale (some 40000)) = true := by
  exact ⟨by decide, by decide, by decide, by decide⟩

/-- Claim C3 amended: the total included in the acceptance notification is
the recomputed total of the ORIGINAL booking (with its original checkIn);
it coincides with the persisted updated booking's recomputed total whenever
no proposedCheckIn is supplied. -/
theorem accept_email_total (rooms : List Room) (b : Booking) (p : String) :
    strContains (handleAccept rooms b p).2.body
      (jsToLocale (bookingTotal rooms b)) = true ∧
    (p = "" → bookingTotal rooms ((handleAccept rooms b p).1) =
      bookingTotal rooms b) := by
  constructor
  · show strContains (acceptBody rooms b p) (jsToLocale (bookingTotal rooms b)) = true
    unfold strContains acceptBody
    simp only [toList_append]
    apply contains_mono_right
    apply contains_mono_left
    exact contains_refl _
  · intro h
    subst h
    simp [handleAccept, acceptUpdated, bookingTotal]

/-- Witness for the amended C3: with no proposed check-in, the persisted
booking's recomputed total matches the notified one. -/
theorem accept_email_total_witness :
    bookingTotal [roomStd] ((handleAccept [roomStd] bookingA "").1) =
      bookingTotal [roomStd] bookingA :=
  (accept_email_total [roomStd] bookingA "").2 rfl

/-- Claim C8: reject persists the booking with status rejected and invokes
the notification with the free-text reason embedded in the message body. -/
theorem reject_spec (b : Booking) (reason : String) :
    (handleReject b reason).1.status = BookingStatus.rejected ∧
    (handleReject b reason).2.status = BookingStatus.rejected ∧
    strContains (handleReject b reason).2.body reason = true := by
  refine ⟨rfl, rfl, ?_⟩
  show strContains (rejectBody b reason) reason = true
  unfold strContains rejectBody
  simp only [toList_append]
  apply contains_mono_right
  apply contains_mono_left
  exact contains_refl _

/-- Witness for C8 at the spec's concrete scenario: rejecting with reason
"fully booked" yields a rejected record and a body containing that text. -/
theorem reject_spec_witness :
    (handleReject bookingA "fully booked").1.status = BookingStatus.rejected ∧
    strContains (handleReject bookingA "fully booked").2.body "fully booked" = true :=
  ⟨(reject_spec bookingA "fully booked").1, (reject_spec bookingA "fully booked").2.2⟩

/-- Claim C10 (implicit): accept performs no validation of the supplied
proposedCheckIn - any non-empty string becomes the persisted checkIn with
checkOut untouched, the empty string is treated as absent, and concretely
a proposed check-in after checkOut persists an accepted booking violating
the checkOut-strictly-after-checkIn invariant (both dates parse, yet
checkIn is not before checkOut). -/
theorem accept_no_validation (rooms : List Room) (b : Booking) (p : String) :
    (p ≠ "" → (handleAccept rooms b p).1.checkIn = p ∧
      (handleAccept rooms b p).1.checkOut = b.checkOut) ∧
    (p = "" → (handleAccept rooms b p).1.checkIn = b.checkIn) ∧
    ((handleAccept [] bookingA "2024-06-05").1.status = BookingStatus.accepted ∧
      (parseDate (handleAccept [] bookingA "2024-06-05").1.checkIn).isSome = true ∧
      (parseDate (handleAccept [] bookingA "2024-06-05").1.checkOut).isSome = true ∧
      jsDateLt (handleAccept [] bookingA "2024-06-05").1.checkIn
        (handleAccept [] bookingA "2024-06-05").1.checkOut = false) := by
  refine ⟨fun h => ⟨?_, rfl⟩, fun h => ?_, by decide, by decide, by decide, by decide⟩
  · simp [handleAccept, acceptUpdated, beq_iff_eq, h]
  · simp [handleAccept, acceptUpdated, beq_iff_eq, h]

/-- Witness for C10: a concrete non-empty proposed check-in is persisted
verbatim. -/
theorem accept_no_validation_witness :
    (handleAccept [] bookingA "2024-06-05").1.checkIn = "2024-06-05" :=
  ((accept_no_validation [] bookingA "2024-06-05").1 (by decide)).1

/-- In a two-effect trace of a save followed by an email, every index
holding a save precedes every index holding an email. -/
theorem pair_save_first (s : Booking) (em : EmailMsg) (i j : Nat)
    (bk : Booking) (m : EmailMsg)
    (hi : [Effect.save s, Effect.sendEmail em][i]? = some (Effect.save bk))
    (hj : [Effect.save s, Effect.sendEmail em][j]? = some (Effect.sendEmail m)) :
    i < j := by
  cases i with
  | zero =>
    cases j with
    | zero => simp at hj
    | succ j' => exact Nat.succ_pos j'
  | succ i' =>
    cases i' with
    | zero => simp at hi
    | succ i'' => simp at hi

/-- After an upsert of `u`, looking the store up at `u.id` yields `u`. -/
theorem find_map_upsert (store : List Booking) (u : Booking)
    (h : (store.any fun x => x.id == u.id) = true) :
    (store.map fun x => if x.id == u.id then u else x).find?
      (fun x => x.id == u.id) = some u := by
  induction store with
  | nil => simp at h
  | cons x xs ih =>
    by_cases hx : (x.id == u.id) = true
    · simp [List.find?, hx]
    · have hx' : (x.id == u.id) = false := by simpa using hx
      rw [List.map_cons, if_neg hx, List.find?_cons, hx']
      exact ih (by simpa [List.any_cons, hx'] using h)

/-- Appending a booking with an id absent from the store makes that id
resolve to it. -/
theorem find_append_fresh (store : List Booking) (u : Booking)
    (h : (store.any fun x => x.id == u.id) = false) :
    (store ++ [u]).find? (fun x => x.id == u.id) = some u := by
  induction store with
  | nil => simp [List.find?]
  | cons x xs ih =>
    simp only [List.any_cons, Bool.or_eq_false_iff] at h
    simp only [List.cons_append, List.find?, h.1]
    exact ih h.2

/-- The upsert semantics of `saveBooking`: after `putBooking store u`, the
stored booking with id `u.id` is `u`. -/
theorem getStored_putBooking_self (store : List Booking) (u : Booking) :
    getStored (putBooking store u) u.id = some u := by
  unfold getStored putBooking
  by_cases h : (store.any fun x => x.id == u.id) = true
  · rw [if_pos h]
    exact find_map_upsert store u h
  · rw [if_neg h]
    exact find_append_fresh store u (by simpa using h)

/-- Claim C7: within one admin accept or reject action the store write
precedes the notification attempt in the effect trace, and running the
trace leaves the booking stored with its new terminal status whatever the
notification outcome `emailOk`. -/
theorem persist_before_notify (rooms : List Room) (store : List Booking)
    (b : Booking) (p reason : String) (emailOk : Bool) :
    (∀ (i j : Nat) (bk : Booking) (m : EmailMsg),
        (acceptEffects rooms b p)[i]? = some (Effect.save bk) →
        (acceptEffects rooms b p)[j]? = some (Effect.sendEmail m) → i < j) ∧
    getStored (runEffects store emailOk (acceptEffects rooms b p)) b.id =
      some (acceptUpdated b p) ∧
    (acceptUpdated b p).status = BookingStatus.accepted ∧
    (∀ (i j : Nat) (bk : Booking) (m : EmailMsg),
        (rejectEffects b reason)[i]? = some (Effect.save bk) →
        (rejectEffects b reason)[j]? = some (Effect.sendEmail m) → i < j) ∧
    getStored (runEffects store emailOk (rejectEffects b reason)) b.id =
      some (rejectUpdated b) ∧
    (rejectUpdated b).status = BookingStatus.rejected := by
  refine ⟨?_, ?_, rfl, ?_, ?_, rfl⟩
  · intro i j bk m hi hj
    exact pair_save_first (handleAccept rooms b p).1 (handleAccept rooms b p).2
      i j bk m hi hj
  · show getStored (putBooking store (acceptUpdated b p)) b.id =
      some (acceptUpdated b p)
    exact getStored_putBooking_self store (acceptUpdated b p)
  · intro i j bk m hi hj
    exact pair_save_first (handleReject b reason).1 (handleReject b reason).2
      i j bk m hi hj
  · show getStored (putBooking store (rejectUpdated b)) b.id =
      some (rejectUpdated b)
    exact getStored_putBooking_self store (rejectUpdated b)

/-- Witness for C7: a failed notification (emailOk false) still leaves the
concrete booking stored as accepted. -/
theorem persist_before_notify_witness :
    getStored (runEffects [bookingA] false (acceptEffects [roomStd] bookingA ""))
      "a" = some (acceptUpdated bookingA "") :=
  (persist_before_notify [roomStd] [bookingA] bookingA "" "no rooms" false).2.1

/-- The booking form's input state (`src/unnamed/part_010`): the date and
guest text fields and the selected room ids. -/
structure BookingFormState where
  checkIn : String
  checkOut : String
  guestName : String
  guestPhone : String
  guestEmail : String
  selectedIds : List String
deriving DecidableEq

/-- Models JS `String.prototype.trim`: strips whitespace from both ends
(`String.trim` of the library is avoided because it does not reduce
definitionally). -/
def jsTrim (s : String) : String :=
  String.mk (((s.toList.dropWhile Char.isWhitespace).reverse.dropWhile
    Char.isWhitespace).reverse)

/-- `nights` of `src/unnamed/part_010` lines 92-98: 0 when either date
string is empty, else the whole-day difference when positive, else 0 (an
invalid date gives a NaN difference, and NaN > 0 is false). -/
def nights (checkIn checkOut : String) : Int :=
  if checkIn == "" || checkOut == "" then 0
  else
    match parseDate checkIn, parseDate checkOut with
    | some cin, some cout => if cout - cin > 0 then cout - cin else 0
    | _, _ => 0

/-- Splits a character list at the first occurrence of `c`. -/
def splitAtFirst (c : Char) : List Char → Option (List Char × List Char)
  | [] => none
  | h :: t =>
    if h == c then some ([], t)
    else (splitAtFirst c t).map fun pr => (h :: pr.1, pr.2)

/-- Whether the list has a `'.'` at an interior position (neither first
nor last). -/
def hasInteriorDot (l : List Char) : Bool :=
  (List.range l.length).any fun i =>
    decide (1 ≤ i) && decide (i + 1 < l.length) && (l.getD i ' ' == '.')

/-- The email test of `src/unnamed/part_010` line 115, the regular
expression `^[^\s@]+@[^\s@]+\.[^\s@]+$` : a non-empty run free of
whitespace and `@`, one `@`, then a non-empty run free of whitespace and
`@` that a dot splits into two non-empty halves; since the class admits
`'.'` itself, this holds exactly when the part after the `@` has a dot at
an interior position.  JS `\s` is modelled by `Char.isWhitespace`. -/
def emailOk (s : String) : Bool :=
  match splitAtFirst '@' s.toList with
  | none => false
  | some (localPart, rest) =>
    !localPart.isEmpty && localPart.all (fun c => !c.isWhitespace) &&
    !rest.isEmpty && rest.all (fun c => !(c == '@') && !c.isWhitespace) &&
    hasInteriorDot rest

/-- `validate` of `src/unnamed/part_010` lines 108-121: the first failing
check's message, or `none` (the source's `null`) when the input is valid.
The date-order check compares `new Date` values, so unparseable dates fall
through it to the final nights check. -/
def validate (st : BookingFormState) : Option String :=
  if jsTrim st.checkIn == "" then some "Please select check-in date."
  else if jsTrim st.checkOut == "" then some "Please select check-out date."
  else if jsDateLe st.checkOut st.checkIn then some "Check-out must be after check-in."
  else if jsTrim st.guestName == "" then some "Please enter your name."
  else if jsTrim st.guestEmail == "" then some "Please enter your email."
  else if !emailOk (jsTrim st.guestEmail) then some "Please enter a valid email address."
  else if jsTrim st.guestPhone == "" then some "Please enter your phone number."
  else if st.selectedIds.isEmpty then some "Please select at least one room."
  else if nights st.checkIn st.checkOut ≤ 0 then some "Invalid stay duration."
  else none

/-- The resolved room list of `src/unnamed/part_010` lines 44-69: each
selected id looked up in the catalog, unresolved ids dropped. -/
def effectiveRooms (catalog : List Room) (selectedIds : List String) : List Room :=
  (selectedIds.map (getRoomById catalog)).filterMap id

/-- `totalPrice` of `src/unnamed/part_010` lines 101-106:
`effectiveRooms.reduce((sum, r) => sum + r.price * nights, 0)`. -/
def totalPrice (catalog : List Room) (st : BookingFormState) : Int :=
  (effectiveRooms catalog st.selectedIds).foldl
    (fun sum r => sum + r.price * nights st.checkIn st.checkOut) 0

/-- `handleSubmit` of `src/unnamed/part_010` lines 123-154: a failing
`validate` sets the error and returns before any `saveBooking`; otherwise
exactly the new pending booking is saved.  `newId` stands for
`generateId()` (a fresh UUID) and `now` for `new Date().toISOString()`. -/
def handleSubmit (catalog : List Room) (st : BookingFormState)
    (newId now : String) : Option String × List Effect :=
  match validate st with
  | some err => (some err, [])
  | none =>
    (none,
     [Effect.save
       { id := newId, roomIds := st.selectedIds,
         guestName := jsTrim st.guestName, guestPhone := jsTrim st.guestPhone,
         guestEmail := jsTrim st.guestEmail,
         checkIn := st.checkIn, checkOut := st.checkOut,
         status := BookingStatus.pending, totalPrice := totalPrice catalog st,
         createdAt := now, updatedAt := none }])

/-- A string that parses as a date is not empty. -/
theorem parse_ne_empty {s : String} {x : Int} (h : parseDate s = some x) :
    (s == "") = false := by
  cases hs : s == "" with
  | false => rfl
  | true =>
    have he : s = "" := by simpa using hs
    rw [he] at h
    exact absurd h (by simp [parseDate])

/-- A passing `validate` pins down every individual check. -/
theorem validate_none_conditions {st : BookingFormState}
    (h : validate st = none) :
    jsTrim st.checkIn ≠ "" ∧ jsTrim st.checkOut ≠ "" ∧
    jsDateLe st.checkOut st.checkIn = false ∧
    emailOk (jsTrim st.guestEmail) = true ∧
    st.selectedIds ≠ [] ∧ 0 < nights st.checkIn st.checkOut := by
  unfold validate at h
  split_ifs at h with h1 h2 h3 h4 h5 h6 h7 h8 h9
  refine ⟨by simpa using h1, by simpa using h2, by simpa using h3,
    by simpa using h6, by simpa [List.isEmpty_iff] using h8, by omega⟩

/-- Claim C4: with checkOut on or before checkIn, the nights computation
yields 0 and validation fails; missing dates, a failing email format
check, or an empty room selection likewise fail validation; and any
validation failure makes the submission return its error with no store
effect at all. -/
theorem create_validation (catalog : List Room) (st : BookingFormState)
    (newId now : String) (ci co : Int) :
    (parseDate st.checkIn = some ci → parseDate st.checkOut = some co →
      co ≤ ci → nights st.checkIn st.checkOut = 0 ∧ validate st ≠ none) ∧
    ((jsTrim st.checkIn = "" ∨ jsTrim st.checkOut = "") → validate st ≠ none) ∧
    (emailOk (jsTrim st.guestEmail) = false → validate st ≠ none) ∧
    (st.selectedIds = [] → validate st ≠ none) ∧
    (∀ err, validate st = some err →
      handleSubmit catalog st newId now = (some err, [])) := by
  refine ⟨fun hci hco hle => ⟨?_, fun hnone => ?_⟩,
    fun hmiss hnone => ?_, fun hbad hnone => ?_, fun hsel hnone => ?_,
    fun err herr => ?_⟩
  · rw [nights, parse_ne_empty hci, parse_ne_empty hco]
    simp only [Bool.or_self, Bool.false_eq_true, if_false, hci, hco]
    rw [if_neg (by omega)]
  · have h3 := (validate_none_conditions hnone).2.2.1
    rw [jsDateLe, hco, hci] at h3
    simp at h3
    omega
  · rcases hmiss with hm | hm
    · exact (validate_none_conditions hnone).1 hm
    · exact (validate_none_conditions hnone).2.1 hm
  · have := (validate_none_conditions hnone).2.2.2.1
    rw [hbad] at this
    exact Bool.false_ne_true this
  · exact (validate_none_conditions hnone).2.2.2.2.1 hsel
  · simp [handleSubmit, herr]

/-- Concrete invalid form input: inverted dates. -/
def stInverted : BookingFormState :=
  { checkIn := "2024-06-03", checkOut := "2024-06-01", guestName := "Ann",
    guestPhone := "100", guestEmail := "ann@example.com",
    selectedIds := ["r1"] }

/-- Witness for C4: inverted dates give zero nights and fail validation. -/
theorem create_validation_witness :
    nights stInverted.checkIn stInverted.checkOut = 0 ∧
      validate stInverted ≠ none :=
  (create_validation [roomStd] stInverted "b1" "t" 19877 19875).1
    rfl rfl (by decide)

/-- Folding price accumulation equals the accumulator plus the mapped sum. -/
theorem foldl_price_aux (l : List Room) (n a : Int) :
    l.foldl (fun sum r => sum + r.price * n) a =
      a + (l.map fun r => r.price * n).sum := by
  induction l generalizing a with
  | nil => simp
  | cons r t ih =>
    simp only [List.foldl_cons, List.map_cons, List.sum_cons, ih]
    ring

/-- Summing over the resolved rooms equals summing over the ids with an
unresolvable id contributing 0. -/
theorem sum_effective (catalog : List Room) (ids : List String) (n : Int) :
    ((effectiveRooms catalog ids).map fun r => r.price * n).sum =
      (ids.map fun id =>
        (((getRoomById catalog id).map Room.price).getD 0) * n).sum := by
  induction ids with
  | nil => rfl
  | cons i t ih =>
    unfold effectiveRooms at ih ⊢
    cases hg : getRoomById catalog i with
    | none =>
      simp only [List.map_cons, List.filterMap_cons, hg, id_eq,
        Option.map_none', Option.getD_none, List.sum_cons, zero_mul, zero_add]
      exact ih
    | some r =>
      simp only [List.map_cons, List.filterMap_cons, hg, id_eq,
        Option.map_some', Option.getD_some, List.sum_cons]
      rw [ih]

/-- Claim C5: a valid creation input is persisted as a pending booking
whose totalPrice is the sum over its roomIds of the looked-up room price
times the nights of the stay. -/
theorem create_success (catalog : List Room) (st : BookingFormState)
    (newId now : String) (h : validate st = none) :
    ∃ b, handleSubmit catalog st newId now = (none, [Effect.save b]) ∧
      b.status = BookingStatus.pending ∧
      b.roomIds = st.selectedIds ∧
      b.checkIn = st.checkIn ∧ b.checkOut = st.checkOut ∧
      b.totalPrice = (st.selectedIds.map fun id =>
        (((getRoomById catalog id).map Room.price).getD 0) *
          nights st.checkIn st.checkOut).sum := by
  refine ⟨{ id := newId, roomIds := st.selectedIds,
            guestName := jsTrim st.guestName, guestPhone := jsTrim st.guestPhone,
            guestEmail := jsTrim st.guestEmail,
            checkIn := st.checkIn, checkOut := st.checkOut,
            status := BookingStatus.pending, totalPrice := totalPrice catalog st,
            createdAt := now, updatedAt := none },
    ?_, rfl, rfl, rfl, rfl, ?_⟩
  · simp [handleSubmit, h]
  · show totalPrice catalog st = _
    rw [totalPrice, foldl_price_aux, zero_add, sum_effective]

/-- Concrete valid form input for the spec scenario. -/
def stGood : BookingFormState :=
  { checkIn := "2024-06-01", checkOut := "2024-06-03", guestName := "Ann",
    guestPhone := "100", guestEmail := "ann@example.com",
    selectedIds := ["r1"] }

/-- Witness for C5 at the spec scenario: one room at 20000 for 2 nights is
stored pending with total 40000. -/
theorem create_success_witness :
    ∃ b, handleSubmit [roomStd] stGood "b1" "2024-05-01T00:00:00.000Z" =
        (none, [Effect.save b]) ∧
      b.status = BookingStatus.pending ∧ b.totalPrice = 40000 := by
  obtain ⟨b, h1, h2, h3, h4, h5, h6⟩ :=
    create_success [roomStd] stGood "b1" "2024-05-01T00:00:00.000Z" (by decide)
  exact ⟨b, h1, h2, by rw [h6]; decide⟩

/-- `bookingNights` of `src/src/components/AdminBookings.tsx` lines 20-25:
the positive whole-day difference of the two `new Date` values, else 0 (an
invalid date gives a NaN difference, and NaN > 0 is false). -/
def bookingNights (b : Booking) : Int :=
  match parseDate b.checkIn, parseDate b.checkOut with
  | some cin, some cout => if cout - cin > 0 then cout - cin else 0
  | _, _ => 0

/-- `bookingTotal` of `src/src/components/AdminBookings.tsx` lines 27-32:
`sum + (room?.price || 0) * bookingNights(booking)` over
`booking.roomIds`, with `lookupRoom` the catalog lookup (`getRoomById`);
`room?.price || 0` makes an unresolvable room id contribute 0. -/
def bookingTotalKV (lookupRoom : String → Option Room) (b : Booking) : Int :=
  b.roomIds.foldl
    (fun sum id =>
      sum + (((lookupRoom id).map Room.price).getD 0) * bookingNights b) 0

/-- Folding an accumulated summand over ids equals the mapped sum. -/
theorem foldl_getD_aux (f : String → Int) (ids : List String) (a : Int) :
    ids.foldl (fun sum id => sum + f id) a = a + (ids.map f).sum := by
  induction ids generalizing a with
  | nil => simp
  | cons i t ih =>
    simp only [List.foldl_cons, List.map_cons, List.sum_cons, ih]
    ring

/-- Sample room priced 10000 for the spec's pricing example. -/
def roomTen : Room :=
  { id := "r1", name := "Ten", price := 10000, description := "", images := [] }

/-- Sample room priced 15000 for the spec's pricing example. -/
def roomFifteen : Room :=
  { id := "r2", name := "Fifteen", price := 15000, description := "", images := [] }

/-- Sample two-room booking, 2020-01-01 to 2020-01-03 (2 nights). -/
def bookingTwoRooms : Booking :=
  { id := "c", roomIds := ["r1", "r2"], guestName := "Cy", guestPhone := "300",
    guestEmail := "cy@example.com", checkIn := "2020-01-01",
    checkOut := "2020-01-03", status := BookingStatus.pending,
    totalPrice := 50000, createdAt := "2019-12-01T00:00:00.000Z",
    updatedAt := none }

/-- Claim C6: the total equals the sum over the room ids of the looked-up
price times the nights, an unresolvable id contributing 0 instead of
aborting; two rooms priced 10000 and 15000 over 2 nights total 50000. -/
theorem total_spec (lookupRoom : String → Option Room) (b : Booking) :
    bookingTotalKV lookupRoom b =
      (b.roomIds.map fun id =>
        (((lookupRoom id).map Room.price).getD 0) * bookingNights b).sum ∧
    (∀ id, lookupRoom id = none →
      (((lookupRoom id).map Room.price).getD 0) * bookingNights b = 0) ∧
    bookingTotalKV (getRoomById [roomTen, roomFifteen]) bookingTwoRooms = 50000 := by
  refine ⟨?_, fun id hid => by simp [hid], by decide⟩
  show b.roomIds.foldl
      (fun sum id =>
        sum + (((lookupRoom id).map Room.price).getD 0) * bookingNights b) 0 = _
  rw [foldl_getD_aux
    (fun id => (((lookupRoom id).map Room.price).getD 0) * bookingNights b),
    zero_add]

/-- Witness for C6 at the spec example: the two-room 2-night total is
50000. -/
theorem total_spec_witness :
    bookingTotalKV (getRoomById [roomTen, roomFifteen]) bookingTwoRooms = 50000 :=
  (total_spec (getRoomById [roomTen, roomFifteen]) bookingTwoRooms).2.2

/-- The lookup a `putBooking` upsert leaves at a DIFFERENT id is unchanged
(replaced-in-place case). -/
theorem find_map_upsert_ne (store : List Booking) (u : Booking) (id : String)
    (hne : id ≠ u.id) :
    (store.map fun x => if x.id == u.id then u else x).find?
      (fun x => x.id == id) = store.find? (fun x => x.id == id) := by
  induction store with
  | nil => rfl
  | cons x xs ih =>
    by_cases hx : (x.id == u.id) = true
    · have hxid : x.id = u.id := by simpa using hx
      have h1 : (u.id == id) = false := by
        simp only [beq_eq_false_iff_ne, ne_eq]
        exact fun hh => hne hh.symm
      have h2 : (x.id == id) = false := by rw [hxid]; exact h1
      rw [List.map_cons, if_pos hx, List.find?_cons, List.find?_cons, h1, h2]
      exact ih
    · rw [List.map_cons, if_neg hx, List.find?_cons, List.find?_cons]
      cases hxi : (x.id == id) with
      | true => rfl
      | false => exact ih

/-- The lookup at a DIFFERENT id ignores an appended fresh booking. -/
theorem find_append_ne (store : List Booking) (u : Booking) (id : String)
    (hne : id ≠ u.id) :
    (store ++ [u]).find? (fun x => x.id == id) =
      store.find? (fun x => x.id == id) := by
  induction store with
  | nil =>
    have h1 : (u.id == id) = false := by
      simp only [beq_eq_false_iff_ne, ne_eq]
      exact fun hh => hne hh.symm
    simp only [List.nil_append, List.find?_cons, h1, List.find?_nil]
  | cons x xs ih =>
    rw [List.cons_append, List.find?_cons, List.find?_cons]
    cases hxi : (x.id == id) with
    | true => rfl
    | false => exact ih

/-- An upsert leaves every other id's lookup unchanged. -/
theorem getStored_putBooking_ne (store : List Booking) (u : Booking)
    (id : String) (hne : id ≠ u.id) :
    getStored (putBooking store u) id = getStored store id := by
  unfold getStored putBooking
  by_cases h : (store.any fun x => x.id == u.id) = true
  · rw [if_pos h]
    exact find_map_upsert_ne store u id hne
  · rw [if_neg h]
    exact find_append_ne store u id hne

/-- A stored booking carries the id it was looked up under. -/
theorem getStored_id {store : List Booking} {id : String} {b : Booking}
    (h : getStored store id = some b) : b.id = id := by
  unfold getStored at h
  have := List.find?_some h
  simpa using this

/-- One action reachable through the interface: a guest form submission
(`src/unnamed/part_010`), or an admin accept/reject, which the interface
offers only on a booking rendered with pending status
(`src/unnamed/part_012` lines 269-295). -/
inductive AdminAction where
  | create (st : BookingFormState) (catalog : List Room) (newId now : String)
  | accept (rooms : List Room) (id : String) (proposedCheckIn : String)
      (emailOk : Bool)
  | reject (id : String) (reason : String) (emailOk : Bool)

/-- The store after one action: create runs the form submission's effects;
accept and reject resolve the id and run their effects only when the
stored booking is pending, mirroring the pending-only action buttons. -/
def step (store : List Booking) : AdminAction → List Booking
  | AdminAction.create st catalog newId now =>
    runEffects store true (handleSubmit catalog st newId now).2
  | AdminAction.accept rooms id p emailOk =>
    match getStored store id with
    | some b =>
      if b.status == BookingStatus.pending then
        runEffects store emailOk (acceptEffects rooms b p)
      else store
    | none => store
  | AdminAction.reject id reason emailOk =>
    match getStored store id with
    | some b =>
      if b.status == BookingStatus.pending then
        runEffects store emailOk (rejectEffects b reason)
      else store
    | none => store

/-- Side condition on create: `generateId()` is a fresh UUID, so the new
id is not already stored. -/
def actionWellFormed (store : List Booking) : AdminAction → Prop
  | AdminAction.create _ _ newId _ => getStored store newId = none
  | _ => True

/-- Both monotonicity conjuncts hold trivially when the lookup at `id` is
unchanged by the step. -/
theorem step_unchanged_at (store2 store : List Booking) (id : String)
    (heq : getStored store2 id = getStored store id) :
    (∀ b', getStored store id = none → getStored store2 id = some b' →
      b'.status = BookingStatus.pending) ∧
    (∀ b b', getStored store id = some b → getStored store2 id = some b' →
      b'.status = b.status ∨
        (b.status = BookingStatus.pending ∧
          (b'.status = BookingStatus.accepted ∨
           b'.status = BookingStatus.rejected))) := by
  constructor
  · intro b' hnone hsome
    rw [heq, hnone] at hsome
    exact absurd hsome (by simp)
  · intro b b' hb hb'
    rw [heq, hb] at hb'
    exact Or.inl (congrArg Booking.status (Option.some.inj hb').symm)

/-- Claim C9: under the lifecycle's step relation a booking only ever
comes into existence pending, and an existing booking's status either
stays unchanged or moves from pending to accepted or rejected; in
particular no terminal status ever changes. -/
theorem status_monotonic (store : List Booking) (a : AdminAction)
    (id : String) (hwf : actionWellFormed store a) :
    (∀ b', getStored store id = none →
      getStored (step store a) id = some b' →
      b'.status = BookingStatus.pending) ∧
    (∀ b b', getStored store id = some b →
      getStored (step store a) id = some b' →
      b'.status = b.status ∨
        (b.status = BookingStatus.pending ∧
          (b'.status = BookingStatus.accepted ∨
           b'.status = BookingStatus.rejected))) := by
  cases a with
  | create st catalog newId now =>
    cases hv : validate st with
    | some err =>
      have hstep : step store (AdminAction.create st catalog newId now) = store := by
        simp [step, handleSubmit, hv, runEffects]
      rw [hstep]
      exact step_unchanged_at store store id rfl
    | none =>
      have hstep : step store (AdminAction.create st catalog newId now) =
          putBooking store
            { id := newId, roomIds := st.selectedIds,
              guestName := jsTrim st.guestName,
              guestPhone := jsTrim st.guestPhone,
              guestEmail := jsTrim st.guestEmail,
              checkIn := st.checkIn, checkOut := st.checkOut,
              status := BookingStatus.pending,
              totalPrice := totalPrice catalog st,
              createdAt := now, updatedAt := none } := by
        simp [step, handleSubmit, hv, runEffects]
      rw [hstep]
      by_cases hid : id = newId
      · subst hid
        constructor
        · intro b' _ hsome
          have hself := getStored_putBooking_self store
            { id := id, roomIds := st.selectedIds,
              guestName := jsTrim st.guestName,
              guestPhone := jsTrim st.guestPhone,
              guestEmail := jsTrim st.guestEmail,
              checkIn := st.checkIn, checkOut := st.checkOut,
              status := BookingStatus.pending,
              totalPrice := totalPrice catalog st,
              createdAt := now, updatedAt := none }
          rw [hself] at hsome
          rw [← Option.some.inj hsome]
        · intro b b' hb _
          exact absurd (hwf.symm.trans hb) (by simp)
      · exact step_unchanged_at _ store id (getStored_putBooking_ne store _ id hid)
  | accept rooms aid p emailOk =>
    cases hg : getStored store aid with
    | none =>
      have hstep : step store (AdminAction.accept rooms aid p emailOk) = store := by
        simp [step, hg]
      rw [hstep]
      exact step_unchanged_at store store id rfl
    | some bk =>
      by_cases hp : (bk.status == BookingStatus.pending) = true
      · have hstep : step store (AdminAction.accept rooms aid p emailOk) =
            putBooking store (acceptUpdated bk p) := by
          simp [step, hg, hp, runEffects, acceptEffects, handleAccept]
        rw [hstep]
        by_cases hid : id = aid
        · subst hid
          constructor
          · intro b' hnone _
            exact absurd (hnone.symm.trans hg) (by simp)
          · intro b b' hb hb'
            have hbk : bk = b := Option.some.inj (hg.symm.trans hb)
            subst hbk
            have hbid : bk.id = id := getStored_id hb
            have hself := getStored_putBooking_self store (acceptUpdated bk p)
            rw [show (acceptUpdated bk p).id = id from hbid] at hself
            have hb'eq : b' = acceptUpdated bk p :=
              Option.some.inj (hb'.symm.trans hself)
            subst hb'eq
            exact Or.inr ⟨by simpa using hp, Or.inl rfl⟩
        · have hbid : bk.id = aid := getStored_id hg
          exact step_unchanged_at _ store id
            (getStored_putBooking_ne store (acceptUpdated bk p) id
              (by simpa [acceptUpdated, hbid] using hid))
      · have hstep : step store (AdminAction.accept rooms aid p emailOk) = store := by
          simp [step, hg, hp]
        rw [hstep]
        exact step_unchanged_at store store id rfl
  | reject rid reason emailOk =>
    cases hg : getStored store rid with
    | none =>
      have hstep : step store (AdminAction.reject rid reason emailOk) = store := by
        simp [step, hg]
      rw [hstep]
      exact step_unchanged_at store store id rfl
    | some bk =>
      by_cases hp : (bk.status == BookingStatus.pending) = true
      · have hstep : step store (AdminAction.reject rid reason emailOk) =
            putBooking store (rejectUpdated bk) := by
          simp [step, hg, hp, runEffects, rejectEffects, handleReject]
        rw [hstep]
        by_cases hid : id = rid
        · subst hid
          constructor
          · intro b' hnone _
            exact absurd (hnone.symm.trans hg) (by simp)
          · intro b b' hb hb'
            have hbk : bk = b := Option.some.inj (hg.symm.trans hb)
            subst hbk
            have hbid : bk.id = id := getStored_id hb
            have hself := getStored_putBooking_self store (rejectUpdated bk)
            rw [show (rejectUpdated bk).id = id from hbid] at hself
            have hb'eq : b' = rejectUpdated bk :=
              Option.some.inj (hb'.symm.trans hself)
            subst hb'eq
            exact Or.inr ⟨by simpa using hp, Or.inr rfl⟩
        · have hbid : bk.id = rid := getStored_id hg
          exact step_unchanged_at _ store id
            (getStored_putBooking_ne store (rejectUpdated bk) id
              (by simpa [rejectUpdated, hbid] using hid))
      · have hstep : step store (AdminAction.reject rid reason emailOk) = store := by
          simp [step, hg, hp]
        rw [hstep]
        exact step_unchanged_at store store id rfl

/-- Witness for C9: accepting the concrete pending booking moves it
pending → accepted, matching the allowed transitions. -/
theorem status_monotonic_witness :
    (acceptUpdated bookingA "").status = bookingA.status ∨
      (bookingA.status = BookingStatus.pending ∧
        ((acceptUpdated bookingA "").status = BookingStatus.accepted ∨
         (acceptUpdated bookingA "").status = BookingStatus.rejected)) :=
  (status_monotonic [bookingA] (AdminAction.accept [roomStd] "a" "" true) "a"
      trivial).2 bookingA (acceptUpdated bookingA "") rfl (by decide)

end Hotel
